import Mathlib

/-! Topology resolver of `locator/production_snitch_base.hh`.

A shallow embedding of `locator::production_snitch_base`. The fields of the object become
a record; each member function becomes a function from the object (and the collaborators
it reads) to an `outcome` holding the returned value or the exception thrown, the object
after the call, and what the call did to its collaborators (log lines, store loads).
-/

set_option autoImplicit false

namespace locator

/-! ## Collaborator types (declared in headers included by the source) -/

/-- Network address of a cluster member (`gms::inet_address`); equality is address-based. -/
structure inet_address where
  raw_addr : Nat
deriving DecidableEq, Repr

/-- Pair stored per endpoint in `addr2dc_rack_map` (`locator::endpoint_dc_rack`); the source
reads its members `dc` and `rack`. -/
structure endpoint_dc_rack where
  dc : String
  rack : String
deriving DecidableEq, Repr

/-- Keys of the gossip application state (`gms::application_state`). The source names only
`DC` and `RACK`; every other enumerator of the header is kept as `other n`. -/
inductive application_state where
  | DC
  | RACK
  | other (n : Nat)
deriving DecidableEq, Repr

/-- Gossip value (`gms::versioned_value`); the source reads its member `value`. -/
structure versioned_value where
  value : String
  version : Int
deriving DecidableEq, Repr

/-- Lookup in a C++ `unordered_map`, kept as an association list: `some v` stands for an
iterator to the entry of `k`, `none` for `end()`. -/
def map_find {κ ν : Type} [DecidableEq κ] (k : κ) : List (κ × ν) → Option ν
  | [] => none
  | (k', v) :: rest => if k' = k then some v else map_find k rest

/-- Per-endpoint gossip state (`gms::endpoint_state`): a map from application state to
versioned value. -/
structure endpoint_state where
  application_state_map : List (application_state × versioned_value)
deriving DecidableEq, Repr

/-- Member `endpoint_state::get_application_state(key)`: the value stored for `key`, if any. -/
def endpoint_state.get_application_state (st : endpoint_state) (key : application_state) :
    Option versioned_value :=
  map_find key st.application_state_map

/-- The membership subsystem (`gms::gossiper`) as far as the source reads it: its
`endpoint_state_map`. -/
structure gossiper where
  endpoint_state_map : List (inet_address × endpoint_state)
deriving DecidableEq, Repr

/-- Member `gossiper::get_endpoint_state_for_endpoint(ep)`: the state of `ep`, if known. -/
def gossiper.get_endpoint_state_for_endpoint (g : gossiper) (ep : inet_address) :
    Option endpoint_state :=
  map_find ep g.endpoint_state_map

/-- Map of inet address to (datacenter, rack) pair (`addr2dc_rack_map`). -/
abbrev addr2dc_rack_map := List (inet_address × endpoint_dc_rack)

/-- Any exception a collaborator call may throw, identified by its message. -/
structure std_exception where
  what : String
deriving DecidableEq, Repr

/-- Exception class `bad_property_file_error`: derived from `std::exception` with an empty
body, so a value of it has no members. -/
structure bad_property_file_error where
deriving DecidableEq, Repr

deriving instance DecidableEq for Except

/-- Seastar `promise<>` as far as it can be observed: whether its future was handed out and
whether it was resolved. A default-constructed promise has neither. -/
structure promise where
  future_taken : Bool
  value_set : Bool
deriving DecidableEq, Repr

/-- Value of `promise<>()`. -/
def promise.fresh : promise := ⟨false, false⟩

/-! ## The object -/

/-- Fields of the base class `snitch_base` that the source reads and writes. -/
structure snitch_base where
  _my_dc : String
  _my_rack : String
  _prefer_local : Bool
deriving DecidableEq, Repr

/-- Fields of a `production_snitch_base` object: those inherited from `snitch_base` and
those declared in the source. -/
structure production_snitch_base extends snitch_base where
  allowed_property_keys : List String
  _io_is_stopped : promise
  _saved_endpoints : Option addr2dc_rack_map
  _my_distributed : Option Nat
  _prop_file_contents : String
  _prop_file_name : String
  _prop_values : List (String × String)
  _prop_file_size : Nat
deriving DecidableEq, Repr

/-- Constant `default_dc`. -/
def default_dc : String := "UNKNOWN_DC"
/-- Constant `default_rack`. -/
def default_rack : String := "UNKNOWN_RACK"
/-- Constant `snitch_properties_filename`. -/
def snitch_properties_filename : String := "cassandra-rackdc.properties"
/-- Constant `dc_property_key`. -/
def dc_property_key : String := "dc"
/-- Constant `rack_property_key`. -/
def rack_property_key : String := "rack"
/-- Constant `prefer_local_property_key`. -/
def prefer_local_property_key : String := "prefer_local"
/-- Constant `dc_suffix_property_key`. -/
def dc_suffix_property_key : String := "dc_suffix"

/-- What a query reads from outside the object: the node's broadcast address
(`utils::fb_utilities::get_broadcast_address()`), the local gossiper
(`gms::get_local_gossiper()`), and what a call of `db::system_keyspace::load_dc_rack_info()`
made now would do: return a map or throw. -/
structure environment where
  broadcast_address : inet_address
  local_gossiper : gossiper
  load_dc_rack_info : Except std_exception addr2dc_rack_map

/-- Result of a member function call: the value returned or the exception that left the
call, the object after the call, how many times the call invoked
`db::system_keyspace::load_dc_rack_info()`, and the messages it wrote with
`logger().error`. -/
structure outcome (ε α : Type) where
  result : Except ε α
  snitch : production_snitch_base
  load_calls : Nat
  log : List String

/-- The tail of `get_endpoint_info` (from `_saved_endpoints->find(endpoint)` on): the
field of the found entry that `key` selects, or `default_val` when `find` returns `end()`. -/
def saved_lookup (saved : addr2dc_rack_map) (endpoint : inet_address)
    (key : application_state) (default_val : String) : String :=
  match map_find endpoint saved with
  | some it =>
    if key = application_state.RACK then it.rack
    else it.dc -- gms::application_state::DC
  -- ...if still not found - return a default value
  | none => default_val

/-- Private member `get_endpoint_info(endpoint, key, default_val)`. No `try` surrounds the
call of `load_dc_rack_info`, so an exception it throws leaves `get_endpoint_info` before
`_saved_endpoints` is assigned. -/
def production_snitch_base.get_endpoint_info (self : production_snitch_base)
    (env : environment) (endpoint : inet_address) (key : application_state)
    (default_val : String) : outcome std_exception String :=
  -- First, look in the gossiper::endpoint_state_map...
  match (env.local_gossiper.get_endpoint_state_for_endpoint endpoint).bind
      (fun state => state.get_application_state key) with
  | some ep_state => ⟨.ok ep_state.value, self, 0, []⟩
  | none =>
    -- ...if not found - look in the SystemTable...
    match self._saved_endpoints with
    | some saved => ⟨.ok (saved_lookup saved endpoint key default_val), self, 0, []⟩
    | none =>
      match env.load_dc_rack_info with
      | .error e => ⟨.error e, self, 1, []⟩
      | .ok saved =>
        ⟨.ok (saved_lookup saved endpoint key default_val),
          { self with _saved_endpoints := some saved }, 1, []⟩

/-- Member `get_rack(endpoint)`. -/
def production_snitch_base.get_rack (self : production_snitch_base) (env : environment)
    (endpoint : inet_address) : outcome std_exception String :=
  if endpoint = env.broadcast_address then ⟨.ok self._my_rack, self, 0, []⟩
  else self.get_endpoint_info env endpoint application_state.RACK default_rack

/-- Member `get_datacenter(endpoint)`. -/
def production_snitch_base.get_datacenter (self : production_snitch_base) (env : environment)
    (endpoint : inet_address) : outcome std_exception String :=
  if endpoint = env.broadcast_address then ⟨.ok self._my_dc, self, 0, []⟩
  else self.get_endpoint_info env endpoint application_state.DC default_dc

/-- Member `set_my_dc(new_dc)`. -/
def production_snitch_base.set_my_dc (self : production_snitch_base) (new_dc : String) :
    production_snitch_base :=
  { self with _my_dc := new_dc }

/-- Member `set_my_rack(new_rack)`. -/
def production_snitch_base.set_my_rack (self : production_snitch_base) (new_rack : String) :
    production_snitch_base :=
  { self with _my_rack := new_rack }

/-- Member `set_prefer_local(prefer_local)`. -/
def production_snitch_base.set_prefer_local (self : production_snitch_base)
    (prefer_local : Bool) : production_snitch_base :=
  { self with _prefer_local := prefer_local }

/-- Member `throw_double_declaration(key)`: logs an error, then throws. -/
def production_snitch_base.throw_double_declaration (self : production_snitch_base)
    (key : String) : outcome bad_property_file_error Unit :=
  ⟨.error {}, self, 0, ["double \"" ++ key ++ "\" declaration in " ++ self._prop_file_name]⟩

/-- Member `throw_bad_format(line)`: logs an error, then throws. -/
def production_snitch_base.throw_bad_format (self : production_snitch_base)
    (line : String) : outcome bad_property_file_error Unit :=
  ⟨.error {}, self, 0,
    ["Bad format in properties file " ++ self._prop_file_name ++ ": " ++ line]⟩

/-- Member `throw_incomplete_file()`: logs an error, then throws. -/
def production_snitch_base.throw_incomplete_file (self : production_snitch_base) :
    outcome bad_property_file_error Unit :=
  ⟨.error {}, self, 0,
    ["Property file " ++ self._prop_file_name ++
      " is incomplete. Some obligatory fields are missing."]⟩

/-- The gossiper holds no value of `key` for `endpoint`: either no endpoint state at all, or
an endpoint state without that application state. -/
def no_membership_value (env : environment) (endpoint : inet_address)
    (key : application_state) : Prop :=
  ∀ st, env.local_gossiper.get_endpoint_state_for_endpoint endpoint = some st →
    st.get_application_state key = none

instance (env : environment) (endpoint : inet_address) (key : application_state) :
    Decidable (no_membership_value env endpoint key) :=
  match h : env.local_gossiper.get_endpoint_state_for_endpoint endpoint with
  | none => isTrue (fun st hst => by rw [h] at hst; cases hst)
  | some st =>
    if hv : st.get_application_state key = none then
      isTrue (fun st' hst' => by rw [h] at hst'; cases hst'; exact hv)
    else isFalse (fun hall => hv (hall st h))

/-- The map a query that reaches the saved-endpoints step looks into is `saved`: it is
already cached in the object, or the cache is not loaded and the load made by this call
returns it. -/
def saved_snapshot (self : production_snitch_base) (env : environment)
    (saved : addr2dc_rack_map) : Prop :=
  self._saved_endpoints = some saved ∨
    (self._saved_endpoints = none ∧ env.load_dc_rack_info = .ok saved)

/-! ## Sequences of queries -/

/-- One call of a public query member. -/
inductive query where
  | get_datacenter (endpoint : inet_address)
  | get_rack (endpoint : inet_address)
deriving DecidableEq, Repr

/-- Perform one query on the object in the environment of that moment. -/
def production_snitch_base.ask (self : production_snitch_base) (env : environment) :
    query → outcome std_exception String
  | .get_datacenter endpoint => self.get_datacenter env endpoint
  | .get_rack endpoint => self.get_rack env endpoint

/-- What a sequence of queries leaves behind: the answers in order, the object after the
last query, and the total number of `load_dc_rack_info` calls made. -/
structure history where
  answers : List (Except std_exception String)
  snitch : production_snitch_base
  load_calls : Nat

/-- Run queries one after the other, each in the environment of its own moment (the
gossiper and the store may have changed in between); the object is threaded through. -/
def production_snitch_base.run (self : production_snitch_base) :
    List (environment × query) → history
  | [] => ⟨[], self, 0⟩
  | (env, q) :: rest =>
    let o := self.ask env q
    let h := o.snitch.run rest
    ⟨o.result :: h.answers, h.snitch, o.load_calls + h.load_calls⟩

/-- Endpoint a query asks about. -/
def query.endpoint : query → inet_address
  | .get_datacenter endpoint => endpoint
  | .get_rack endpoint => endpoint

/-- Application state a query asks for. -/
def query.key : query → application_state
  | .get_datacenter _ => application_state.DC
  | .get_rack _ => application_state.RACK

/-- The query gets past the self check and the gossiper: it asks about another node, and
the gossiper holds no value of the requested application state for it. -/
def reaches_saved_endpoints (env : environment) (q : query) : Prop :=
  q.endpoint ≠ env.broadcast_address ∧ no_membership_value env q.endpoint q.key

instance (env : environment) (q : query) : Decidable (reaches_saved_endpoints env q) := by
  unfold reaches_saved_endpoints
  exact inferInstance

/-- Two moments that differ at most in what the store would return: same broadcast
address, same gossiper content, same question. -/
def same_but_store (a b : environment × query) : Prop :=
  a.1.broadcast_address = b.1.broadcast_address ∧ a.1.local_gossiper = b.1.local_gossiper ∧
    a.2 = b.2

/-! ## Property file -/

/-- Modelled from the spec: the whitespace trimmed around lines, keys and values. The spec
names no character set; blank, tab, carriage return and line feed are taken. -/
def is_space (c : Char) : Bool :=
  c = ' ' || c = '\t' || c = '\r' || c = '\n'

/-- Modelled from the spec: removal of trailing whitespace. -/
def trim_right : List Char → List Char
  | [] => []
  | c :: cs =>
    match trim_right cs with
    | [] => if is_space c then [] else [c]
    | r :: rs => c :: r :: rs

/-- Modelled from the spec: "leading/trailing whitespace ... is trimmed". -/
def trim (cs : List Char) : List Char :=
  trim_right (cs.dropWhile is_space)

/-- Modelled from the spec: the grammar is "line-oriented"; the text is cut at every line
feed, the line feeds themselves dropped. -/
def split_lines : List Char → List (List Char)
  | [] => [[]]
  | c :: cs =>
    if c = '\n' then [] :: split_lines cs
    else
      match split_lines cs with
      | [] => [[c]]
      | l :: ls => (c :: l) :: ls

/-- Modelled from the spec: a line "of the form `key=value`" is cut at its first `=`; a line
with no `=` does not parse. -/
def split_key_value (line : List Char) : Option (List Char × List Char) :=
  if '=' ∈ line then
    some (line.takeWhile (fun c => c != '='), (line.dropWhile (fun c => c != '=')).tail)
  else none

/-- Modelled from the spec: the line loop of `parse_property_file` (§4.1), which the source
declares but does not define. Blank lines and comment lines (leading `#`) are ignored; a
line that does not parse into `key=value` is rejected with `throw_bad_format`; whitespace
around key and value is trimmed; a key outside `allowed_property_keys` is rejected (the
spec's default, reported here as a bad format); a key seen before is rejected with
`throw_double_declaration`. -/
def production_snitch_base.parse_lines (self : production_snitch_base) :
    List (List Char) → List (String × String) → outcome bad_property_file_error Unit
  | [], table => ⟨.ok (), { self with _prop_values := table }, 0, []⟩
  | line :: rest, table =>
    let trimmed := trim line
    if trimmed = [] ∨ trimmed.head? = some '#' then self.parse_lines rest table
    else
      match split_key_value trimmed with
      | none => self.throw_bad_format (String.mk line)
      | some (k, v) =>
        let key := String.mk (trim k)
        let value := String.mk (trim v)
        if key ∉ self.allowed_property_keys then self.throw_bad_format (String.mk line)
        else if (map_find key table).isSome then self.throw_double_declaration key
        else self.parse_lines rest (table ++ [(key, value)])

/-- Modelled from the spec: `parse_property_file()` (§4.1), which the source declares but
does not define: parses `_prop_file_contents` into `_prop_values`, or throws. -/
def production_snitch_base.parse_property_file (self : production_snitch_base) :
    outcome bad_property_file_error Unit :=
  self.parse_lines (split_lines self._prop_file_contents.data) []

/-- Modelled from the spec: `load_property_file()` (§2, §4.1, §6), which the source declares
but does not define, given the text `file_text` of the file named `_prop_file_name`. The
text is kept, parsed and validated; if `dc` or `rack` is absent the load is rejected with
`throw_incomplete_file`; otherwise the node's own datacenter, rack and prefer-local fields
are set from the table (`prefer_local` defaults to false). A rejection aborts the whole
load: no identity field is set. -/
def production_snitch_base.load_property_file (self : production_snitch_base)
    (file_text : String) : outcome bad_property_file_error Unit :=
  let parsed :=
    ({ self with _prop_file_contents := file_text } : production_snitch_base).parse_property_file
  match parsed.result with
  | .error e => ⟨.error e, parsed.snitch, 0, parsed.log⟩
  | .ok () =>
    match map_find dc_property_key parsed.snitch._prop_values,
        map_find rack_property_key parsed.snitch._prop_values with
    | some dc, some rack =>
      let prefer_local :=
        decide (map_find prefer_local_property_key parsed.snitch._prop_values = some "true")
      ⟨.ok (), ((parsed.snitch.set_my_dc dc).set_my_rack rack).set_prefer_local prefer_local,
        0, []⟩
    | _, _ => parsed.snitch.throw_incomplete_file

/-! ### Well-formed property files, described line by line -/

/-- One line of a property file: whitespace only; a comment, possibly indented; or a
`key=value` entry with whitespace allowed around the key and around the value. -/
inductive property_line where
  | blank (pad : String)
  | comment (pad text : String)
  | entry (pad1 key pad2 pad3 value pad4 : String)
deriving DecidableEq, Repr

/-- Characters of a line as written in the file. -/
def property_line.chars : property_line → List Char
  | .blank pad => pad.data
  | .comment pad text => pad.data ++ '#' :: text.data
  | .entry pad1 key pad2 pad3 value pad4 =>
    pad1.data ++ key.data ++ pad2.data ++ '=' :: (pad3.data ++ value.data ++ pad4.data)

/-- Lines joined by line feeds. A last blank line with empty padding gives a text whose
last character is a line feed. -/
def join_lines : List (List Char) → List Char
  | [] => []
  | [l] => l
  | l :: l' :: ls => l ++ '\n' :: join_lines (l' :: ls)

/-- Text of the file made of the given lines. -/
def render_file (file : List property_line) : String :=
  String.mk (join_lines (file.map property_line.chars))

/-- Padding: whitespace within a line. -/
def is_padding (s : String) : Prop :=
  ∀ c ∈ s.data, is_space c = true ∧ c ≠ '\n'

/-- A value as the file gives it: it stays within its line and has no whitespace at
either end (such whitespace would be padding). It may be empty and may contain `=`. -/
def is_value (s : String) : Prop :=
  '\n' ∉ s.data ∧ (∀ c ∈ s.data.head?, is_space c = false) ∧
    (∀ c ∈ s.data.getLast?, is_space c = false)

instance (s : String) : Decidable (is_padding s) := by
  unfold is_padding
  exact inferInstance

instance (s : String) : Decidable (is_value s) := by
  unfold is_value
  exact inferInstance

/-- A well-formed line: padding is whitespace, a comment stays within its line, and an
entry has one of the four keys of §6 and a value. -/
def property_line.well_formed : property_line → Prop
  | .blank pad => is_padding pad
  | .comment pad text => is_padding pad ∧ '\n' ∉ text.data
  | .entry pad1 key pad2 pad3 value pad4 =>
    is_padding pad1 ∧ is_padding pad2 ∧ is_padding pad3 ∧ is_padding pad4 ∧
      key ∈ ["dc", "rack", "prefer_local", "dc_suffix"] ∧ is_value value

instance (l : property_line) : Decidable l.well_formed := by
  cases l <;> unfold property_line.well_formed <;> exact inferInstance

/-- The entries of a file in order, as (key, value) pairs. -/
def declared : List property_line → List (String × String)
  | [] => []
  | .entry _ key _ _ value _ :: rest => (key, value) :: declared rest
  | _ :: rest => declared rest

/-- A sample property file: the spec's end-to-end example with a comment, padding and a
final line feed added. -/
def sample_file : List property_line :=
  [.comment "" " topology of this node", .entry "" "dc" "" "" "east" "",
   .blank " ", .entry "  " "rack" " " " " "r1" "\t", .entry "" "prefer_local" "" "" "true" "",
   .blank ""]

/-! ## Construction and lifecycle -/

/-- Member `reset_io_state()`: assigns a default-constructed promise to `_io_is_stopped`.
The body has no other statement and the move assignment of a promise does not throw, so
the call always returns. -/
def production_snitch_base.reset_io_state (self : production_snitch_base) :
    outcome std_exception Unit :=
  ⟨.ok (), { self with _io_is_stopped := promise.fresh }, 0, []⟩

/-- Library operation `boost::filesystem::path::operator/=` on POSIX path strings: `p` is
appended to `path`, with one directory separator put in between unless `p` is empty or
starts with a separator, or `path` is empty or already ends with one. -/
def path_append (path p : String) : String :=
  if p.data = [] then path
  else if p.data.head? = some '/' then path ++ p
  else if path.data = [] ∨ path.data.getLast? = some '/' then path ++ p
  else path ++ "/" ++ p

/-- Constructor `production_snitch_base(prop_file_name)`. `base` is the `snitch_base`
subobject as its own constructor leaves it, `conf_dir` the value returned by
`db::config::get_conf_dir()`, and `prop_file_size` the indeterminate initial value of
`_prop_file_size`, which has no initializer. -/
def production_snitch_base.construct (base : snitch_base) (conf_dir : String)
    (prop_file_size : Nat) (prop_file_name : String) : production_snitch_base :=
  { base with
    allowed_property_keys :=
      [dc_property_key, rack_property_key, prefer_local_property_key, dc_suffix_property_key],
    _io_is_stopped := promise.fresh,
    _saved_endpoints := none,
    _my_distributed := none,
    _prop_file_contents := "",
    _prop_file_name :=
      if prop_file_name ≠ "" then prop_file_name
      else path_append conf_dir snitch_properties_filename,
    _prop_values := [],
    _prop_file_size := prop_file_size }

/-! ## Sample objects and environments -/

/-- A node in datacenter east, rack r1, whose saved-endpoints cache is not loaded. -/
def sample_snitch : production_snitch_base :=
  { _my_dc := "east", _my_rack := "r1", _prefer_local := true,
    allowed_property_keys := ["dc", "rack", "prefer_local", "dc_suffix"],
    _io_is_stopped := promise.fresh, _saved_endpoints := none, _my_distributed := none,
    _prop_file_contents := "", _prop_file_name := "/etc/scylla/cassandra-rackdc.properties",
    _prop_values := [], _prop_file_size := 0 }

/-- The local node's address. -/
def addr_self : inet_address := ⟨1⟩
/-- A peer known to gossip (rack only) and to the store. -/
def addr_peer : inet_address := ⟨2⟩
/-- A peer known to the store only. -/
def addr_saved : inet_address := ⟨3⟩
/-- A peer nobody knows. -/
def addr_unknown : inet_address := ⟨4⟩

/-- Gossip knows rack "r2" for `addr_peer`; the store holds (dc1, r1) for `addr_peer` and
(dc3, r3) for `addr_saved`. -/
def sample_env : environment :=
  { broadcast_address := addr_self,
    local_gossiper := ⟨[(addr_peer, ⟨[(application_state.RACK, ⟨"r2", 7⟩)]⟩)]⟩,
    load_dc_rack_info := .ok [(addr_peer, ⟨"dc1", "r1"⟩), (addr_saved, ⟨"dc3", "r3"⟩)] }

/-- The same moment as `sample_env`, but the store load throws. -/
def failing_env : environment :=
  { sample_env with load_dc_rack_info := .error ⟨"read failed"⟩ }

/-- A later moment: the store now holds different data for `addr_saved`. -/
def later_env : environment :=
  { sample_env with load_dc_rack_info := .ok [(addr_saved, ⟨"dc9", "r9"⟩)] }

/-! ## Resolution order: self, membership, saved endpoints, default -/

/-- The gossiper holds no value exactly when the two lookups of `get_endpoint_info`, chained,
find nothing. -/
theorem no_membership_value_iff (env : environment) (endpoint : inet_address)
    (key : application_state) :
    no_membership_value env endpoint key ↔
      (env.local_gossiper.get_endpoint_state_for_endpoint endpoint).bind
        (fun st => st.get_application_state key) = none := by
  unfold no_membership_value
  cases env.local_gossiper.get_endpoint_state_for_endpoint endpoint with
  | none => simp
  | some st => simp

theorem bind_none_of_no_membership_value {env : environment} {endpoint : inet_address}
    {key : application_state} (h : no_membership_value env endpoint key) :
    (env.local_gossiper.get_endpoint_state_for_endpoint endpoint).bind
      (fun st => st.get_application_state key) = none :=
  (no_membership_value_iff env endpoint key).mp h

/-- What `get_endpoint_info` does once the gossiper has no value and the map looked into
is `saved`. -/
theorem get_endpoint_info_of_saved (self : production_snitch_base) (env : environment)
    (endpoint : inet_address) (key : application_state) (default_val : String)
    (saved : addr2dc_rack_map) (hm : no_membership_value env endpoint key)
    (hs : saved_snapshot self env saved) :
    (self.get_endpoint_info env endpoint key default_val).result =
      .ok (saved_lookup saved endpoint key default_val) := by
  have hb := bind_none_of_no_membership_value hm
  unfold production_snitch_base.get_endpoint_info
  rcases hs with hs | ⟨hs, hl⟩
  · simp only [hb, hs]
  · simp only [hb, hs, hl]

/-- Every call of `get_endpoint_info` does one of three things: answer without touching the
store or the object; load the store once and keep the map; or let the load's exception
escape, the object untouched. -/
theorem get_endpoint_info_cases (self : production_snitch_base) (env : environment)
    (endpoint : inet_address) (key : application_state) (default_val : String) :
    ((self.get_endpoint_info env endpoint key default_val).snitch = self ∧
      (self.get_endpoint_info env endpoint key default_val).load_calls = 0 ∧
      (∃ v, (self.get_endpoint_info env endpoint key default_val).result = .ok v) ∧
      (no_membership_value env endpoint key → self._saved_endpoints ≠ none)) ∨
    (self._saved_endpoints = none ∧ no_membership_value env endpoint key ∧
      ∃ m, env.load_dc_rack_info = .ok m ∧
        (self.get_endpoint_info env endpoint key default_val).snitch =
          { self with _saved_endpoints := some m } ∧
        (self.get_endpoint_info env endpoint key default_val).load_calls = 1 ∧
        ∃ v, (self.get_endpoint_info env endpoint key default_val).result = .ok v) ∨
    (self._saved_endpoints = none ∧ no_membership_value env endpoint key ∧
      ∃ e, env.load_dc_rack_info = .error e ∧
        (self.get_endpoint_info env endpoint key default_val).snitch = self ∧
        (self.get_endpoint_info env endpoint key default_val).load_calls = 1 ∧
        (self.get_endpoint_info env endpoint key default_val).result = .error e) := by
  unfold production_snitch_base.get_endpoint_info
  cases hb : (env.local_gossiper.get_endpoint_state_for_endpoint endpoint).bind
      (fun st => st.get_application_state key) with
  | some v =>
    left
    refine ⟨rfl, rfl, ⟨v.value, rfl⟩, ?_⟩
    intro hm
    rw [bind_none_of_no_membership_value hm] at hb
    cases hb
  | none =>
    have hm : no_membership_value env endpoint key := by
      intro st hst
      rw [hst] at hb
      simpa using hb
    cases hs : self._saved_endpoints with
    | some m =>
      left
      exact ⟨rfl, rfl, ⟨_, rfl⟩, fun _ => by simp⟩
    | none =>
      right
      cases hl : env.load_dc_rack_info with
      | error e =>
        right
        exact ⟨rfl, hm, e, rfl, rfl, rfl, rfl⟩
      | ok m =>
        left
        exact ⟨rfl, hm, m, rfl, rfl, rfl, ⟨_, rfl⟩⟩

/-- The three behaviours of `get_endpoint_info`, for either public query. -/
theorem ask_cases (self : production_snitch_base) (env : environment) (q : query) :
    ((self.ask env q).snitch = self ∧ (self.ask env q).load_calls = 0 ∧
      (∃ v, (self.ask env q).result = .ok v) ∧
      (reaches_saved_endpoints env q → self._saved_endpoints ≠ none)) ∨
    (self._saved_endpoints = none ∧ reaches_saved_endpoints env q ∧
      ∃ m, env.load_dc_rack_info = .ok m ∧
        (self.ask env q).snitch = { self with _saved_endpoints := some m } ∧
        (self.ask env q).load_calls = 1 ∧ ∃ v, (self.ask env q).result = .ok v) ∨
    (self._saved_endpoints = none ∧ reaches_saved_endpoints env q ∧
      ∃ e, env.load_dc_rack_info = .error e ∧
        (self.ask env q).snitch = self ∧ (self.ask env q).load_calls = 1 ∧
        (self.ask env q).result = .error e) := by
  cases q with
  | get_datacenter endpoint =>
    by_cases hne : endpoint = env.broadcast_address
    · left
      simp [production_snitch_base.ask, production_snitch_base.get_datacenter, hne,
        reaches_saved_endpoints, query.endpoint]
    · have h := get_endpoint_info_cases self env endpoint application_state.DC default_dc
      simpa [production_snitch_base.ask, production_snitch_base.get_datacenter, hne,
        reaches_saved_endpoints, query.endpoint, query.key] using h
  | get_rack endpoint =>
    by_cases hne : endpoint = env.broadcast_address
    · left
      simp [production_snitch_base.ask, production_snitch_base.get_rack, hne,
        reaches_saved_endpoints, query.endpoint]
    · have h := get_endpoint_info_cases self env endpoint application_state.RACK default_rack
      simpa [production_snitch_base.ask, production_snitch_base.get_rack, hne,
        reaches_saved_endpoints, query.endpoint, query.key] using h

/-- With the cache loaded, a query neither calls the store nor changes the object. -/
theorem ask_of_loaded (self : production_snitch_base) (env : environment) (q : query)
    (m : addr2dc_rack_map) (hs : self._saved_endpoints = some m) :
    (self.ask env q).snitch = self ∧ (self.ask env q).load_calls = 0 := by
  rcases ask_cases self env q with h | h | h
  · exact ⟨h.1, h.2.1⟩
  · rw [hs] at h
    cases h.1
  · rw [hs] at h
    cases h.1

/-- With the cache loaded, the answer does not depend on what the store would return. -/
theorem ask_result_of_loaded (self : production_snitch_base) (a b : environment × query)
    (m : addr2dc_rack_map) (hs : self._saved_endpoints = some m) (hab : same_but_store a b) :
    (self.ask a.1 a.2).result = (self.ask b.1 b.2).result := by
  obtain ⟨ea, qa⟩ := a
  obtain ⟨eb, qb⟩ := b
  obtain ⟨h1, h2, h3⟩ := hab
  simp only at h1 h2 h3
  subst h3
  cases qa <;>
    simp [production_snitch_base.ask, production_snitch_base.get_datacenter,
      production_snitch_base.get_rack, production_snitch_base.get_endpoint_info, h1, h2, hs]

/-- With the cache loaded, a whole run of queries makes no store call and returns the
object as it was. -/
theorem run_of_loaded (qs : List (environment × query)) (self : production_snitch_base)
    (m : addr2dc_rack_map) (hs : self._saved_endpoints = some m) :
    (self.run qs).snitch = self ∧ (self.run qs).load_calls = 0 := by
  induction qs with
  | nil => exact ⟨rfl, rfl⟩
  | cons p rest ih =>
    obtain ⟨env, q⟩ := p
    obtain ⟨h1, h2⟩ := ask_of_loaded self env q m hs
    simp only [production_snitch_base.run, h1, h2, ih]
    simp

/-- With the cache loaded, the answers of a run do not depend on what the store would
return at any moment of the run. -/
theorem run_answers_of_loaded (qs qs' : List (environment × query))
    (hqs : List.Forall₂ same_but_store qs qs') (self : production_snitch_base)
    (m : addr2dc_rack_map) (hs : self._saved_endpoints = some m) :
    (self.run qs).answers = (self.run qs').answers := by
  induction hqs with
  | nil => rfl
  | @cons a b l l' hab _ ih =>
    obtain ⟨ea, qa⟩ := a
    obtain ⟨eb, qb⟩ := b
    have h1 := (ask_of_loaded self ea qa m hs).1
    have h2 := (ask_of_loaded self eb qb m hs).1
    have h3 := ask_result_of_loaded self (ea, qa) (eb, qb) m hs hab
    simp only at h3
    simp only [production_snitch_base.run, h1, h2, h3, ih]

/-- C1: for every object state and every environment (gossiper content, saved-endpoints
cache, outcome of the store load), a query for the local broadcast address returns the
stored `_my_dc` from `get_datacenter` and the stored `_my_rack` from `get_rack`. -/
theorem self_short_circuit (self : production_snitch_base) (env : environment) :
    (self.get_datacenter env env.broadcast_address).result = .ok self._my_dc ∧
    (self.get_rack env env.broadcast_address).result = .ok self._my_rack := by
  simp [production_snitch_base.get_datacenter, production_snitch_base.get_rack]

/-- C2: for a non-local endpoint whose gossip endpoint state carries a value `v` for the
requested application state, `get_datacenter` (for `DC`) and `get_rack` (for `RACK`) return
`v.value` unchanged, whatever the saved-endpoints cache holds and whatever the store load
would return or throw. -/
theorem membership_value_verbatim (self : production_snitch_base) (env : environment)
    (endpoint : inet_address) (st : endpoint_state) (v : versioned_value)
    (hne : endpoint ≠ env.broadcast_address)
    (hst : env.local_gossiper.get_endpoint_state_for_endpoint endpoint = some st) :
    (st.get_application_state application_state.DC = some v →
      (self.get_datacenter env endpoint).result = .ok v.value) ∧
    (st.get_application_state application_state.RACK = some v →
      (self.get_rack env endpoint).result = .ok v.value) := by
  constructor
  · intro hv
    simp [production_snitch_base.get_datacenter, production_snitch_base.get_endpoint_info,
      hne, hst, hv]
  · intro hv
    simp [production_snitch_base.get_rack, production_snitch_base.get_endpoint_info,
      hne, hst, hv]

/-- C3: for a non-local endpoint with no gossip value for the requested application state
and an entry in the saved-endpoints map (cached, or loaded by this call), `get_datacenter`
returns the entry's `dc` member and `get_rack` returns its `rack` member. -/
theorem persisted_entry_fields (self : production_snitch_base) (env : environment)
    (endpoint : inet_address) (saved : addr2dc_rack_map) (entry : endpoint_dc_rack)
    (hne : endpoint ≠ env.broadcast_address)
    (hs : saved_snapshot self env saved)
    (hfind : map_find endpoint saved = some entry) :
    (no_membership_value env endpoint application_state.DC →
      (self.get_datacenter env endpoint).result = .ok entry.dc) ∧
    (no_membership_value env endpoint application_state.RACK →
      (self.get_rack env endpoint).result = .ok entry.rack) := by
  constructor
  · intro hm
    have h := get_endpoint_info_of_saved self env endpoint application_state.DC default_dc
      saved hm hs
    simp only [saved_lookup, hfind] at h
    simpa [production_snitch_base.get_datacenter, hne] using h
  · intro hm
    have h := get_endpoint_info_of_saved self env endpoint application_state.RACK default_rack
      saved hm hs
    simp only [saved_lookup, hfind] at h
    simpa [production_snitch_base.get_rack, hne] using h

/-- C4: for a non-local endpoint with no gossip endpoint state and no entry in the
saved-endpoints map (cached, or loaded by this call), `get_rack` returns exactly
"UNKNOWN_RACK" and `get_datacenter` returns exactly "UNKNOWN_DC". -/
theorem unknown_endpoint_defaults (self : production_snitch_base) (env : environment)
    (endpoint : inet_address) (saved : addr2dc_rack_map)
    (hne : endpoint ≠ env.broadcast_address)
    (hgossip : env.local_gossiper.get_endpoint_state_for_endpoint endpoint = none)
    (hs : saved_snapshot self env saved)
    (hfind : map_find endpoint saved = none) :
    (self.get_rack env endpoint).result = .ok "UNKNOWN_RACK" ∧
    (self.get_datacenter env endpoint).result = .ok "UNKNOWN_DC" := by
  have hm : ∀ key, no_membership_value env endpoint key := by
    intro key st hst
    rw [hgossip] at hst
    cases hst
  constructor
  · have h := get_endpoint_info_of_saved self env endpoint application_state.RACK default_rack
      saved (hm _) hs
    simp only [saved_lookup, hfind] at h
    simpa [production_snitch_base.get_rack, hne, default_rack] using h
  · have h := get_endpoint_info_of_saved self env endpoint application_state.DC default_dc
      saved (hm _) hs
    simp only [saved_lookup, hfind] at h
    simpa [production_snitch_base.get_datacenter, hne, default_dc] using h

/-- C2, on the sample: gossip says rack "r2" for the peer while the store says "r1";
`get_rack` answers "r2". -/
theorem membership_value_verbatim_witness :
    map_find addr_peer [(addr_peer, (⟨"dc1", "r1"⟩ : endpoint_dc_rack))] = some ⟨"dc1", "r1"⟩ ∧
    (({ sample_snitch with _saved_endpoints := some [(addr_peer, ⟨"dc1", "r1"⟩)] } :
      production_snitch_base).get_rack sample_env addr_peer).result = .ok "r2" :=
  ⟨by decide,
   (membership_value_verbatim _ sample_env addr_peer
      ⟨[(application_state.RACK, ⟨"r2", 7⟩)]⟩ ⟨"r2", 7⟩ (by decide) (by decide)).2 (by decide)⟩

/-- C3, on the sample: the store holds (dc3, r3) for a peer unknown to gossip; the load
made by the query brings it in and `get_datacenter` answers "dc3". -/
theorem persisted_entry_fields_witness :
    (sample_snitch.get_datacenter sample_env addr_saved).result = .ok "dc3" :=
  (persisted_entry_fields sample_snitch sample_env addr_saved
    [(addr_peer, ⟨"dc1", "r1"⟩), (addr_saved, ⟨"dc3", "r3"⟩)] ⟨"dc3", "r3"⟩
    (by decide) (Or.inr ⟨by decide, by decide⟩) (by decide)).1
    (fun st hst => by
      have h : (none : Option endpoint_state) = some st := hst
      cases h)

/-- C4, on the sample: a peer known neither to gossip nor to the store. -/
theorem unknown_endpoint_defaults_witness :
    (sample_snitch.get_rack sample_env addr_unknown).result = .ok "UNKNOWN_RACK" ∧
    (sample_snitch.get_datacenter sample_env addr_unknown).result = .ok "UNKNOWN_DC" :=
  unknown_endpoint_defaults sample_snitch sample_env addr_unknown
    [(addr_peer, ⟨"dc1", "r1"⟩), (addr_saved, ⟨"dc3", "r3"⟩)]
    (by decide) (by decide) (Or.inr ⟨by decide, by decide⟩) (by decide)

/-- From a not-loaded cache, with every load succeeding, a run ends either still not
loaded and without a store call, or loaded and with exactly one store call. -/
theorem run_loads_once (qs : List (environment × query)) (self : production_snitch_base)
    (hnot : self._saved_endpoints = none)
    (hok : ∀ p ∈ qs, ∃ m, p.1.load_dc_rack_info = .ok m) :
    ((self.run qs).snitch._saved_endpoints = none ∧ (self.run qs).load_calls = 0) ∨
    (∃ m, (self.run qs).snitch._saved_endpoints = some m ∧ (self.run qs).load_calls = 1) := by
  induction qs generalizing self with
  | nil => exact Or.inl ⟨hnot, rfl⟩
  | cons p rest ih =>
    obtain ⟨env, q⟩ := p
    have hrest : ∀ p ∈ rest, ∃ m, p.1.load_dc_rack_info = .ok m :=
      fun p hp => hok p (List.mem_cons_of_mem _ hp)
    simp only [production_snitch_base.run]
    rcases ask_cases self env q with h | h | h
    · obtain ⟨hsn, hc, _, _⟩ := h
      rw [hsn, hc]
      simpa using ih self hnot hrest
    · obtain ⟨_, _, m, _, hsn, hc, _⟩ := h
      have hl : (self.ask env q).snitch._saved_endpoints = some m := by rw [hsn]
      obtain ⟨h1, h2⟩ := run_of_loaded rest _ m hl
      right
      exact ⟨m, by rw [h1, hl], by rw [h2, hc]⟩
    · obtain ⟨_, _, e, he, _⟩ := h
      obtain ⟨m, hm⟩ := hok (env, q) (List.mem_cons_self _ _)
      simp only at hm
      rw [hm] at he
      cases he

/-- C5: starting from a not-loaded saved-endpoints cache, over every sequence of
`get_datacenter` / `get_rack` queries whose store loads all succeed, `load_dc_rack_info` is
called at most once (exactly once if the cache ends loaded, never if it ends not loaded);
and once the cache holds a map `m` (an empty one included), every later sequence of queries
makes no store call, leaves the cache equal to `m`, and gives answers that do not depend on
what the store would return at that later time. -/
theorem saved_endpoints_loaded_at_most_once (self : production_snitch_base)
    (qs : List (environment × query))
    (hnot : self._saved_endpoints = none)
    (hok : ∀ p ∈ qs, ∃ m, p.1.load_dc_rack_info = .ok m) :
    (self.run qs).load_calls ≤ 1 ∧
    ((self.run qs).load_calls = 1 ↔ (self.run qs).snitch._saved_endpoints ≠ none) ∧
    ∀ m, (self.run qs).snitch._saved_endpoints = some m →
      ∀ later : List (environment × query),
        ((self.run qs).snitch.run later).load_calls = 0 ∧
        ((self.run qs).snitch.run later).snitch._saved_endpoints = some m ∧
        ∀ later', List.Forall₂ same_but_store later later' →
          ((self.run qs).snitch.run later).answers =
            ((self.run qs).snitch.run later').answers := by
  refine ⟨?_, ?_, ?_⟩
  · rcases run_loads_once qs self hnot hok with h | ⟨m, _, h⟩ <;> omega
  · rcases run_loads_once qs self hnot hok with ⟨h1, h2⟩ | ⟨m, h1, h2⟩
    · simp [h1, h2]
    · simp [h1, h2]
  · intro m hm later
    obtain ⟨h1, h2⟩ := run_of_loaded later _ m hm
    refine ⟨h2, by rw [h1, hm], ?_⟩
    intro later' hl
    exact run_answers_of_loaded later later' hl _ m hm

/-- C5, on the sample: a gossip hit (no load), then a miss that loads the store; a later
query, made when the store would return (dc9, r9), is still answered "dc3" from the first
snapshot, with no further store call. -/
theorem saved_endpoints_loaded_at_most_once_witness :
    (sample_snitch.run
      [(sample_env, .get_rack addr_peer), (sample_env, .get_datacenter addr_saved)]).load_calls
        = 1 ∧
    ((sample_snitch.run
      [(sample_env, .get_rack addr_peer), (sample_env, .get_datacenter addr_saved)]).snitch.run
        [(later_env, .get_datacenter addr_saved)]).load_calls = 0 ∧
    ((sample_snitch.run
      [(sample_env, .get_rack addr_peer), (sample_env, .get_datacenter addr_saved)]).snitch.run
        [(later_env, .get_datacenter addr_saved)]).answers = [.ok "dc3"] := by
  have h := saved_endpoints_loaded_at_most_once sample_snitch
    [(sample_env, .get_rack addr_peer), (sample_env, .get_datacenter addr_saved)]
    (by decide)
    (by
      intro p hp
      simp only [List.mem_cons, List.mem_singleton, List.not_mem_nil, or_false] at hp
      rcases hp with rfl | rfl <;> exact ⟨_, rfl⟩)
  have hm := h.2.2 [(addr_peer, ⟨"dc1", "r1"⟩), (addr_saved, ⟨"dc3", "r3"⟩)] (by decide)
    [(later_env, .get_datacenter addr_saved)]
  refine ⟨h.2.1.mpr (by decide), hm.1, ?_⟩
  rw [hm.2.2 [(sample_env, .get_datacenter addr_saved)]
    (List.Forall₂.cons ⟨rfl, rfl, rfl⟩ List.Forall₂.nil)]
  decide

/-- C6 as stated fails: with the cache not loaded and the store load throwing, `get_rack`
for an unknown peer lets the exception escape instead of returning "UNKNOWN_RACK". -/
theorem load_failure_escapes_query :
    (sample_snitch.get_rack failing_env addr_unknown).result = .error ⟨"read failed"⟩ ∧
    (sample_snitch.get_rack failing_env addr_unknown).result ≠ .ok "UNKNOWN_RACK" ∧
    (sample_snitch.get_datacenter failing_env addr_unknown).result ≠ .ok "UNKNOWN_DC" := by
  decide

/-- C6, amended: a query returns a string whenever it does not reach the store load (a
local endpoint, a gossip value present, or a cache already loaded) or the load succeeds;
when the query reaches the load and the load throws, that exception is the outcome of the
query. -/
theorem query_fails_exactly_when_load_fails (self : production_snitch_base)
    (env : environment) (q : query) :
    ((¬ reaches_saved_endpoints env q ∨ self._saved_endpoints ≠ none ∨
        ∃ m, env.load_dc_rack_info = .ok m) →
      ∃ v, (self.ask env q).result = .ok v) ∧
    (∀ e, reaches_saved_endpoints env q → self._saved_endpoints = none →
      env.load_dc_rack_info = .error e → (self.ask env q).result = .error e) := by
  constructor
  · intro hpre
    rcases ask_cases self env q with h | h | h
    · exact h.2.2.1
    · obtain ⟨_, _, m, _, _, _, hv⟩ := h
      exact hv
    · obtain ⟨hn, hr, e, he, _⟩ := h
      rcases hpre with hpre | hpre | ⟨m, hm⟩
      · exact absurd hr hpre
      · exact absurd hn hpre
      · rw [hm] at he
        cases he
  · intro e hr hn he
    rcases ask_cases self env q with h | h | h
    · exact absurd hn (h.2.2.2 hr)
    · obtain ⟨_, _, m, hm, _⟩ := h
      rw [hm] at he
      cases he
    · obtain ⟨_, _, e', he', _, _, hres⟩ := h
      rw [he'] at he
      cases he
      exact hres

/-- C6 amended, on the sample: the same failing store does not disturb a query answered
by gossip, and its exception is the outcome of a query that reaches the load. -/
theorem query_fails_exactly_when_load_fails_witness :
    (∃ v, (sample_snitch.ask failing_env (.get_rack addr_peer)).result = .ok v) ∧
    (sample_snitch.ask failing_env (.get_rack addr_unknown)).result =
      .error ⟨"read failed"⟩ :=
  ⟨(query_fails_exactly_when_load_fails sample_snitch failing_env (.get_rack addr_peer)).1
      (Or.inl (by decide)),
   (query_fails_exactly_when_load_fails sample_snitch failing_env (.get_rack addr_unknown)).2
      ⟨"read failed"⟩ (by decide) (by decide) (by decide)⟩

/-- C7: when a query reaches the store load and the load throws, the object after the
call is the object before it, so the saved-endpoints cache is still not loaded (not an
empty loaded map), and the next query that gets past the self check and the gossiper
calls the load again. -/
theorem failed_load_leaves_cache_not_loaded (self : production_snitch_base)
    (env : environment) (q : query) (e : std_exception)
    (hnot : self._saved_endpoints = none)
    (hreach : reaches_saved_endpoints env q)
    (hfail : env.load_dc_rack_info = .error e) :
    (self.ask env q).load_calls = 1 ∧
    (self.ask env q).snitch = self ∧
    (self.ask env q).snitch._saved_endpoints = none ∧
    (self.ask env q).snitch._saved_endpoints ≠ some [] ∧
    ∀ env' q', reaches_saved_endpoints env' q' →
      ((self.ask env q).snitch.ask env' q').load_calls = 1 := by
  have hsn : (self.ask env q).snitch = self ∧ (self.ask env q).load_calls = 1 := by
    rcases ask_cases self env q with h | h | h
    · exact absurd hnot (h.2.2.2 hreach)
    · obtain ⟨_, _, m, hm, _⟩ := h
      rw [hm] at hfail
      cases hfail
    · obtain ⟨_, _, _, _, h1, h2, _⟩ := h
      exact ⟨h1, h2⟩
  refine ⟨hsn.2, hsn.1, by rw [hsn.1, hnot], by rw [hsn.1, hnot]; simp, ?_⟩
  intro env' q' hr'
  rw [hsn.1]
  rcases ask_cases self env' q' with h | h | h
  · exact absurd hnot (h.2.2.2 hr')
  · obtain ⟨_, _, _, _, _, h2, _⟩ := h
    exact h2
  · obtain ⟨_, _, _, _, _, h2, _⟩ := h
    exact h2

/-- C7, on the sample: a failed load, then the same question when the store answers. -/
theorem failed_load_leaves_cache_not_loaded_witness :
    (sample_snitch.ask failing_env (.get_rack addr_unknown)).snitch = sample_snitch ∧
    ((sample_snitch.ask failing_env (.get_rack addr_unknown)).snitch.ask sample_env
      (.get_rack addr_unknown)).load_calls = 1 :=
  have h := failed_load_leaves_cache_not_loaded sample_snitch failing_env
    (.get_rack addr_unknown) ⟨"read failed"⟩ (by decide) (by decide) (by decide)
  ⟨h.2.1, h.2.2.2.2 sample_env (.get_rack addr_unknown) (by decide)⟩

/-! ## Rejection helpers -/

theorem str_append_left_cancel (s a b : String) (h : s ++ a = s ++ b) : a = b := by
  have h' := congrArg String.data h
  simp only [String.data_append] at h'
  exact String.ext (List.append_cancel_left h')

theorem str_append_right_cancel (s a b : String) (h : a ++ s = b ++ s) : a = b := by
  have h' := congrArg String.data h
  simp only [String.data_append] at h'
  exact String.ext (List.append_cancel_right h')

/-- C9: for every object state and every argument, each of `throw_double_declaration`,
`throw_bad_format` and `throw_incomplete_file` ends by throwing `bad_property_file_error`
(it never returns normally) and leaves the object as it was. -/
theorem rejection_helpers_always_throw (self : production_snitch_base) (key line : String) :
    ((self.throw_double_declaration key).result = .error bad_property_file_error.mk ∧
      (self.throw_double_declaration key).result ≠ .ok () ∧
      (self.throw_double_declaration key).snitch = self) ∧
    ((self.throw_bad_format line).result = .error bad_property_file_error.mk ∧
      (self.throw_bad_format line).result ≠ .ok () ∧
      (self.throw_bad_format line).snitch = self) ∧
    ((self.throw_incomplete_file).result = .error bad_property_file_error.mk ∧
      (self.throw_incomplete_file).result ≠ .ok () ∧
      (self.throw_incomplete_file).snitch = self) := by
  refine ⟨⟨rfl, ?_, rfl⟩, ⟨rfl, ?_, rfl⟩, ⟨rfl, ?_, rfl⟩⟩ <;> intro h <;> cases h

/-- C10 as stated fails: the value thrown for a duplicate key, for a malformed line and
for an incomplete file is the same, and so is the value thrown for two different keys or
two different lines. -/
theorem rejection_failures_indistinguishable :
    (sample_snitch.throw_double_declaration "dc").result =
      (sample_snitch.throw_bad_format "dc east").result ∧
    (sample_snitch.throw_bad_format "dc east").result =
      (sample_snitch.throw_incomplete_file).result ∧
    (sample_snitch.throw_double_declaration "dc").result =
      (sample_snitch.throw_double_declaration "rack").result ∧
    (sample_snitch.throw_bad_format "dc east").result =
      (sample_snitch.throw_bad_format "rack").result := by
  decide

/-- C10, amended: the value thrown by a rejection is the member-less
`bad_property_file_error`, the same for every rule, key, line and file; the file path, the
rule and the offending key or line are carried by the one error message logged before the
throw. The messages of the three rules are pairwise different, the messages for two
different keys (or two different lines) differ, and for the same key (or line) the
messages of two objects with different property file names differ. -/
theorem rejection_detail_is_logged (self other : production_snitch_base)
    (key key' line line' : String) :
    (∀ e e' : bad_property_file_error, e = e') ∧
    ((self.throw_double_declaration key).result = (other.throw_bad_format line).result ∧
      (self.throw_bad_format line).result = (other.throw_incomplete_file).result ∧
      (self.throw_double_declaration key).result =
        (other.throw_double_declaration key').result ∧
      (self.throw_bad_format line).result = (other.throw_bad_format line').result) ∧
    ((self.throw_double_declaration key).log =
        ["double \"" ++ key ++ "\" declaration in " ++ self._prop_file_name] ∧
      (self.throw_bad_format line).log =
        ["Bad format in properties file " ++ self._prop_file_name ++ ": " ++ line] ∧
      (self.throw_incomplete_file).log =
        ["Property file " ++ self._prop_file_name ++
          " is incomplete. Some obligatory fields are missing."]) ∧
    ((self.throw_double_declaration key).log ≠ (other.throw_bad_format line).log ∧
      (self.throw_double_declaration key).log ≠ (other.throw_incomplete_file).log ∧
      (self.throw_bad_format line).log ≠ (other.throw_incomplete_file).log) ∧
    (key ≠ key' →
      (self.throw_double_declaration key).log ≠ (self.throw_double_declaration key').log) ∧
    (line ≠ line' → (self.throw_bad_format line).log ≠ (self.throw_bad_format line').log) ∧
    (self._prop_file_name ≠ other._prop_file_name →
      (self.throw_double_declaration key).log ≠ (other.throw_double_declaration key).log ∧
      (self.throw_bad_format line).log ≠ (other.throw_bad_format line).log ∧
      (self.throw_incomplete_file).log ≠ (other.throw_incomplete_file).log) := by
  refine ⟨fun _ _ => rfl, ⟨rfl, rfl, rfl, rfl⟩, ⟨rfl, rfl, rfl⟩, ⟨?_, ?_, ?_⟩, ?_, ?_, ?_⟩
  · intro h
    have h' := congrArg (fun l => (l.head?.map String.data).bind List.head?) h
    simp [production_snitch_base.throw_double_declaration,
      production_snitch_base.throw_bad_format, String.data_append] at h'
  · intro h
    have h' := congrArg (fun l => (l.head?.map String.data).bind List.head?) h
    simp [production_snitch_base.throw_double_declaration,
      production_snitch_base.throw_incomplete_file, String.data_append] at h'
  · intro h
    have h' := congrArg (fun l => (l.head?.map String.data).bind List.head?) h
    simp [production_snitch_base.throw_bad_format,
      production_snitch_base.throw_incomplete_file, String.data_append] at h'
  · intro hk h
    simp only [production_snitch_base.throw_double_declaration, List.cons.injEq,
      and_true] at h
    have h1 := str_append_right_cancel _ _ _ h
    have h2 := str_append_right_cancel _ _ _ h1
    exact hk (str_append_left_cancel _ _ _ h2)
  · intro hl h
    simp only [production_snitch_base.throw_bad_format, List.cons.injEq, and_true] at h
    exact hl (str_append_left_cancel _ _ _ h)
  · intro hf
    refine ⟨?_, ?_, ?_⟩
    · intro h
      simp only [production_snitch_base.throw_double_declaration, List.cons.injEq,
        and_true] at h
      exact hf (str_append_left_cancel _ _ _ h)
    · intro h
      simp only [production_snitch_base.throw_bad_format, List.cons.injEq, and_true] at h
      have h1 := str_append_right_cancel _ _ _ h
      have h2 := str_append_right_cancel _ _ _ h1
      exact hf (str_append_left_cancel _ _ _ h2)
    · intro h
      simp only [production_snitch_base.throw_incomplete_file, List.cons.injEq,
        and_true] at h
      have h1 := str_append_right_cancel _ _ _ h
      exact hf (str_append_left_cancel _ _ _ h1)

/-- C10 amended, on the sample: the messages logged for the keys "dc" and "rack" differ,
while the values thrown are equal. -/
theorem rejection_detail_is_logged_witness :
    (sample_snitch.throw_double_declaration "dc").log ≠
      (sample_snitch.throw_double_declaration "rack").log ∧
    (sample_snitch.throw_double_declaration "dc").result =
      (sample_snitch.throw_double_declaration "rack").result :=
  have h := rejection_detail_is_logged sample_snitch sample_snitch "dc" "rack" "" ""
  ⟨h.2.2.2.2.1 (by decide), h.2.1.2.2.1⟩

/-! ## Property file: parsing a well-formed file -/

theorem trim_right_cons_of_ne_nil (c : Char) (cs : List Char) (h : trim_right cs ≠ []) :
    trim_right (c :: cs) = c :: trim_right cs := by
  cases hcs : trim_right cs with
  | nil => exact absurd hcs h
  | cons r rs => simp [trim_right, hcs]

theorem trim_right_cons_of_not_space (c : Char) (cs : List Char) (h : is_space c = false) :
    trim_right (c :: cs) = c :: trim_right cs := by
  cases hcs : trim_right cs with
  | nil => simp [trim_right, hcs, h]
  | cons r rs => simp [trim_right, hcs]

theorem trim_right_append_of_ne_nil (a b : List Char) (h : trim_right b ≠ []) :
    trim_right (a ++ b) = a ++ trim_right b := by
  induction a with
  | nil => rfl
  | cons x xs ih =>
    have hne : trim_right (xs ++ b) ≠ [] := by
      rw [ih]
      cases xs <;> simp [h]
    rw [List.cons_append, trim_right_cons_of_ne_nil _ _ hne, ih, List.cons_append]

theorem trim_right_of_spaces (q : List Char) (hq : ∀ c ∈ q, is_space c = true) :
    trim_right q = [] := by
  induction q with
  | nil => rfl
  | cons x xs ih =>
    have hx := hq x (List.mem_cons_self _ _)
    have hxs := ih (fun c hc => hq c (List.mem_cons_of_mem _ hc))
    simp [trim_right, hxs, hx]

theorem trim_right_append_spaces (v q : List Char) (hq : ∀ c ∈ q, is_space c = true) :
    trim_right (v ++ q) = trim_right v := by
  induction v with
  | nil => simpa [trim_right] using trim_right_of_spaces q hq
  | cons x xs ih =>
    have ih' : trim_right (xs.append q) = trim_right xs := ih
    simp only [List.cons_append, trim_right, ih, ih']

theorem trim_right_of_last (v : List Char)
    (hv : ∀ c, v.getLast? = some c → is_space c = false) : trim_right v = v := by
  induction v with
  | nil => rfl
  | cons x xs ih =>
    cases xs with
    | nil =>
      have hx := hv x rfl
      simp [trim_right, hx]
    | cons y ys =>
      have h' := ih (fun c hc => hv c (by simpa [List.getLast?_cons_cons] using hc))
      rw [trim_right_cons_of_ne_nil _ _ (by rw [h']; simp), h']

theorem dropWhile_spaces_append (p l : List Char) (hp : ∀ c ∈ p, is_space c = true) :
    (p ++ l).dropWhile is_space = l.dropWhile is_space := by
  induction p with
  | nil => rfl
  | cons x xs ih =>
    have hx := hp x (List.mem_cons_self _ _)
    simp only [List.cons_append, List.dropWhile_cons, hx, if_true]
    exact ih (fun c hc => hp c (List.mem_cons_of_mem _ hc))

theorem dropWhile_of_head (l : List Char)
    (hl : ∀ c, l.head? = some c → is_space c = false) : l.dropWhile is_space = l := by
  cases l with
  | nil => rfl
  | cons x xs =>
    have hx := hl x rfl
    simp [List.dropWhile_cons, hx]

/-- Trimming a value wrapped in padding gives the value back. -/
theorem trim_padded (p v q : List Char) (hp : ∀ c ∈ p, is_space c = true)
    (hq : ∀ c ∈ q, is_space c = true)
    (hhead : ∀ c, v.head? = some c → is_space c = false)
    (hlast : ∀ c, v.getLast? = some c → is_space c = false) :
    trim (p ++ v ++ q) = v := by
  unfold trim
  rw [List.append_assoc, dropWhile_spaces_append p _ hp]
  cases v with
  | nil =>
    have h := dropWhile_spaces_append q [] hq
    simp only [List.append_nil, List.dropWhile_nil] at h
    simp [h, trim_right]
  | cons x xs =>
    rw [dropWhile_of_head _ (by simpa using hhead), trim_right_append_spaces _ _ hq,
      trim_right_of_last _ hlast]

/-- Trimming the right end of a padded value, then trimming again, gives the value back. -/
theorem trim_trim_right_padded (p v q : List Char) (hp : ∀ c ∈ p, is_space c = true)
    (hq : ∀ c ∈ q, is_space c = true)
    (hhead : ∀ c, v.head? = some c → is_space c = false)
    (hlast : ∀ c, v.getLast? = some c → is_space c = false) :
    trim (trim_right (p ++ v ++ q)) = v := by
  rw [trim_right_append_spaces _ _ hq]
  cases v with
  | nil =>
    simp [trim_right_of_spaces p hp, trim, trim_right]
  | cons x xs =>
    have hv := trim_right_of_last _ hlast
    rw [trim_right_append_of_ne_nil _ _ (by rw [hv]; simp), hv]
    have h := trim_padded p (x :: xs) [] hp (by simp) hhead hlast
    simpa using h

theorem takeWhile_ne_eq_append (a x : List Char) (ha : ∀ c ∈ a, c ≠ '=') :
    (a ++ '=' :: x).takeWhile (fun c => c != '=') = a ∧
    (a ++ '=' :: x).dropWhile (fun c => c != '=') = '=' :: x := by
  induction a with
  | nil => simp
  | cons y ys ih =>
    have hy := ha y (List.mem_cons_self _ _)
    have h' := ih (fun c hc => ha c (List.mem_cons_of_mem _ hc))
    simp [List.takeWhile_cons, List.dropWhile_cons, hy, h']

theorem split_lines_single (l : List Char) (hl : '\n' ∉ l) : split_lines l = [l] := by
  induction l with
  | nil => rfl
  | cons c cs ih =>
    have hc : c ≠ '\n' := fun h => hl (by simp [h])
    have hcs := ih (fun h => hl (List.mem_cons_of_mem _ h))
    simp [split_lines, hc, hcs]

theorem split_lines_append (l rest : List Char) (hl : '\n' ∉ l) :
    split_lines (l ++ '\n' :: rest) = l :: split_lines rest := by
  induction l with
  | nil => simp [split_lines]
  | cons c cs ih =>
    have hc : c ≠ '\n' := fun h => hl (by simp [h])
    have hcs := ih (fun h => hl (List.mem_cons_of_mem _ h))
    simp [split_lines, hc, hcs]

/-- Cutting a text made of line-feed-free lines gives those lines back. -/
theorem split_lines_join_lines (ls : List (List Char)) (hne : ls ≠ [])
    (hls : ∀ l ∈ ls, '\n' ∉ l) : split_lines (join_lines ls) = ls := by
  induction ls with
  | nil => exact absurd rfl hne
  | cons l rest ih =>
    cases rest with
    | nil => exact split_lines_single l (hls l (List.mem_cons_self _ _))
    | cons l' rest' =>
      have h' := ih (by simp) (fun x hx => hls x (List.mem_cons_of_mem _ hx))
      simp only [join_lines]
      rw [split_lines_append _ _ (hls l (List.mem_cons_self _ _)), h']

theorem is_padding_spaces {s : String} (h : is_padding s) : ∀ c ∈ s.data, is_space c = true :=
  fun c hc => (h c hc).1

/-- What the four keys have in common as character sequences. -/
theorem key_chars (key : String) (h : key ∈ ["dc", "rack", "prefer_local", "dc_suffix"]) :
    (∃ k ks, key.data = k :: ks ∧ is_space k = false ∧ k ≠ '#') ∧
    (∀ c, key.data.getLast? = some c → is_space c = false) ∧
    (∀ c ∈ key.data, c ≠ '=' ∧ c ≠ '\n') := by
  simp only [List.mem_cons, List.mem_singleton, List.not_mem_nil, or_false] at h
  rcases h with rfl | rfl | rfl | rfl
  · exact ⟨⟨'d', ['c'], rfl, by decide, by decide⟩, by decide, by decide⟩
  · exact ⟨⟨'r', ['a', 'c', 'k'], rfl, by decide, by decide⟩, by decide, by decide⟩
  · exact ⟨⟨'p', "refer_local".data, rfl, by decide, by decide⟩, by decide, by decide⟩
  · exact ⟨⟨'d', "c_suffix".data, rfl, by decide, by decide⟩, by decide, by decide⟩

/-- A blank line is skipped. -/
theorem parse_lines_blank (self : production_snitch_base) (pad : String)
    (rest : List (List Char)) (table : List (String × String)) (hpad : is_padding pad) :
    self.parse_lines ((property_line.blank pad).chars :: rest) table =
      self.parse_lines rest table := by
  have ht : trim pad.data = [] := by
    have h := trim_padded pad.data [] [] (is_padding_spaces hpad) (by simp) (by simp) (by simp)
    simpa using h
  rw [production_snitch_base.parse_lines]
  simp [property_line.chars, ht]

/-- A comment line is skipped. -/
theorem parse_lines_comment (self : production_snitch_base) (pad text : String)
    (rest : List (List Char)) (table : List (String × String)) (hpad : is_padding pad) :
    self.parse_lines ((property_line.comment pad text).chars :: rest) table =
      self.parse_lines rest table := by
  have ht : trim (pad.data ++ '#' :: text.data) = '#' :: trim_right text.data := by
    unfold trim
    rw [dropWhile_spaces_append _ _ (is_padding_spaces hpad),
      dropWhile_of_head _ (by simp; decide),
      trim_right_cons_of_not_space _ _ (by decide)]
  rw [production_snitch_base.parse_lines]
  simp [property_line.chars, ht]

/-- The trimmed form of an entry line. -/
theorem trim_entry (pad1 key pad2 pad3 value pad4 : String)
    (hwf : (property_line.entry pad1 key pad2 pad3 value pad4).well_formed) :
    trim (property_line.entry pad1 key pad2 pad3 value pad4).chars =
      (key.data ++ pad2.data) ++
        '=' :: trim_right (pad3.data ++ value.data ++ pad4.data) := by
  obtain ⟨h1, _, _, _, hkey, _⟩ := hwf
  obtain ⟨⟨k, ks, hk, hks, _⟩, _, _⟩ := key_chars key hkey
  unfold trim
  simp only [property_line.chars, List.append_assoc]
  rw [dropWhile_spaces_append _ _ (is_padding_spaces h1),
    dropWhile_of_head _ (by simp [hk, hks]), ← List.append_assoc,
    trim_right_append_of_ne_nil _ _
      (by rw [trim_right_cons_of_not_space _ _ (by decide)]; simp),
    trim_right_cons_of_not_space _ _ (by decide)]
  simp only [List.append_assoc]

/-- An entry line with an allowed, not yet declared key adds its key and value to the
table. -/
theorem parse_lines_entry (self : production_snitch_base)
    (pad1 key pad2 pad3 value pad4 : String)
    (rest : List (List Char)) (table : List (String × String))
    (hwf : (property_line.entry pad1 key pad2 pad3 value pad4).well_formed)
    (hallowed : key ∈ self.allowed_property_keys) (hnew : map_find key table = none) :
    self.parse_lines ((property_line.entry pad1 key pad2 pad3 value pad4).chars :: rest)
        table =
      self.parse_lines rest (table ++ [(key, value)]) := by
  have ht := trim_entry pad1 key pad2 pad3 value pad4 hwf
  obtain ⟨_, h2, h3, h4, hkey, _, hvh, hvl⟩ := hwf
  obtain ⟨⟨k, ks, hk, hks, hhash⟩, hklast, hkeq⟩ := key_chars key hkey
  have hnoeq : ∀ c ∈ key.data ++ pad2.data, c ≠ '=' := by
    intro c hc
    rcases List.mem_append.mp hc with hc | hc
    · exact (hkeq c hc).1
    · intro hceq
      have := (h2 c hc).1
      rw [hceq] at this
      exact absurd this (by decide)
  obtain ⟨htake, hdrop⟩ := takeWhile_ne_eq_append (key.data ++ pad2.data)
    (trim_right (pad3.data ++ value.data ++ pad4.data)) hnoeq
  have hsplit : split_key_value (trim (property_line.entry pad1 key pad2 pad3 value pad4).chars)
      = some (key.data ++ pad2.data, trim_right (pad3.data ++ value.data ++ pad4.data)) := by
    rw [ht]
    unfold split_key_value
    rw [htake, hdrop]
    simp
  have hk1 : trim (key.data ++ pad2.data) = key.data := by
    have h := trim_padded [] key.data pad2.data (by simp) (is_padding_spaces h2)
      (by simp [hk, hks]) hklast
    simpa using h
  have hv1 : trim (trim_right (pad3.data ++ value.data ++ pad4.data)) = value.data :=
    trim_trim_right_padded _ _ _ (is_padding_spaces h3) (is_padding_spaces h4) hvh hvl
  have hne : trim (property_line.entry pad1 key pad2 pad3 value pad4).chars ≠ [] := by
    rw [ht, hk]
    simp
  have hhead : (trim (property_line.entry pad1 key pad2 pad3 value pad4).chars).head? ≠
      some '#' := by
    rw [ht, hk]
    simpa using hhash
  rw [production_snitch_base.parse_lines]
  simp only [hne, hhead, false_or, if_false, hsplit, hk1, hv1, hallowed, not_true_eq_false,
    hnew, Option.isSome_none, Bool.false_eq_true]

theorem map_find_append_of_none {κ ν : Type} [DecidableEq κ] (k : κ) (a b : List (κ × ν))
    (h : map_find k a = none) : map_find k (a ++ b) = map_find k b := by
  induction a with
  | nil => rfl
  | cons x xs ih =>
    obtain ⟨k', v⟩ := x
    by_cases hk : k' = k
    · simp [map_find, hk] at h
    · simp only [map_find, hk, if_false] at h
      simp only [List.cons_append, map_find, hk, if_false]
      exact ih h

theorem well_formed_no_line_feed (l : property_line) (h : l.well_formed) : '\n' ∉ l.chars := by
  cases l with
  | blank pad => exact fun hc => (h _ hc).2 rfl
  | comment pad text =>
    intro hc
    simp only [property_line.chars, List.mem_append, List.mem_cons] at hc
    rcases hc with hc | hc | hc
    · exact (h.1 _ hc).2 rfl
    · exact absurd hc (by decide)
    · exact h.2 hc
  | entry pad1 key pad2 pad3 value pad4 =>
    obtain ⟨h1, h2, h3, h4, hkey, hv, _⟩ := h
    obtain ⟨_, _, hk⟩ := key_chars key hkey
    intro hc
    simp only [property_line.chars, List.mem_append, List.mem_cons] at hc
    rcases hc with ((hc | hc) | hc) | hc | (hc | hc) | hc
    · exact (h1 _ hc).2 rfl
    · exact (hk _ hc).2 rfl
    · exact (h2 _ hc).2 rfl
    · exact absurd hc (by decide)
    · exact (h3 _ hc).2 rfl
    · exact hv hc
    · exact (h4 _ hc).2 rfl

/-- The line loop, run over the lines of a well-formed file whose keys are allowed,
pairwise different and not yet in the table, ends normally with the file's entries added
to the table in order. -/
theorem parse_lines_declared (self : production_snitch_base) (file : List property_line)
    (table : List (String × String))
    (hkeys : ∀ k ∈ ["dc", "rack", "prefer_local", "dc_suffix"],
      k ∈ self.allowed_property_keys)
    (hwf : ∀ l ∈ file, l.well_formed)
    (hfresh : ∀ k ∈ (declared file).map Prod.fst, map_find k table = none)
    (hnodup : ((declared file).map Prod.fst).Nodup) :
    self.parse_lines (file.map property_line.chars) table =
      ⟨.ok (), { self with _prop_values := table ++ declared file }, 0, []⟩ := by
  induction file generalizing table with
  | nil => simp [production_snitch_base.parse_lines, declared]
  | cons l rest ih =>
    have hl := hwf l (List.mem_cons_self _ _)
    have hrest : ∀ l ∈ rest, l.well_formed := fun x hx => hwf x (List.mem_cons_of_mem _ hx)
    cases l with
    | blank pad =>
      rw [List.map_cons, parse_lines_blank self pad _ table hl]
      exact ih table hrest hfresh hnodup
    | comment pad text =>
      rw [List.map_cons, parse_lines_comment self pad text _ table hl.1]
      exact ih table hrest hfresh hnodup
    | entry pad1 key pad2 pad3 value pad4 =>
      simp only [declared, List.map_cons, List.nodup_cons, List.mem_cons, forall_eq_or_imp]
        at hfresh hnodup
      rw [List.map_cons, parse_lines_entry self pad1 key pad2 pad3 value pad4 _ table hl
        (hkeys key hl.2.2.2.2.1) hfresh.1]
      have hfresh' : ∀ k ∈ (declared rest).map Prod.fst,
          map_find k (table ++ [(key, value)]) = none := by
        intro k hk
        rw [map_find_append_of_none k table _ (hfresh.2 k hk)]
        have hne : key ≠ k := fun h => hnodup.1 (h ▸ hk)
        simp [map_find, hne]
      rw [ih (table ++ [(key, value)]) hrest hfresh' hnodup.2]
      simp [declared]

/-- C8: for every well-formed property file text — lines that are blank, comments, or
`key=value` entries with a key among dc, rack, prefer_local, dc_suffix, no key twice —
that declares dc and rack, `load_property_file` ends normally, and afterwards `_my_dc` and
`_my_rack` are exactly the file's dc and rack values. -/
theorem property_file_round_trip (self : production_snitch_base) (file : List property_line)
    (dc rack : String)
    (hkeys : self.allowed_property_keys =
      [dc_property_key, rack_property_key, prefer_local_property_key, dc_suffix_property_key])
    (hwf : ∀ l ∈ file, l.well_formed)
    (honce : ((declared file).map Prod.fst).Nodup)
    (hdc : map_find "dc" (declared file) = some dc)
    (hrack : map_find "rack" (declared file) = some rack) :
    (self.load_property_file (render_file file)).result = .ok () ∧
    (self.load_property_file (render_file file)).snitch._my_dc = dc ∧
    (self.load_property_file (render_file file)).snitch._my_rack = rack := by
  have hne : file.map property_line.chars ≠ [] := by
    cases file with
    | nil => simp [declared, map_find] at hdc
    | cons l rest => simp
  have hsplit : split_lines (join_lines (file.map property_line.chars)) =
      file.map property_line.chars := by
    apply split_lines_join_lines _ hne
    intro cs hcs
    obtain ⟨l, hl, rfl⟩ := List.mem_map.mp hcs
    exact well_formed_no_line_feed l (hwf l hl)
  have hparse := parse_lines_declared
    ({ self with _prop_file_contents := render_file file } : production_snitch_base) file []
    (by simp [hkeys, dc_property_key, rack_property_key, prefer_local_property_key,
      dc_suffix_property_key])
    hwf (fun _ _ => rfl) honce
  have hdata : (render_file file).data = join_lines (file.map property_line.chars) := rfl
  simp only [production_snitch_base.load_property_file,
    production_snitch_base.parse_property_file, hdata, hsplit, hparse, List.nil_append,
    dc_property_key, rack_property_key, hdc, hrack]
  exact ⟨trivial, rfl, rfl⟩

/-- C8, on the sample file (a comment, padded entries, a blank line, a final line feed):
the load ends normally with `_my_dc = "east"` and `_my_rack = "r1"`. -/
theorem property_file_round_trip_witness :
    render_file sample_file =
      "# topology of this node\ndc=east\n \n  rack = r1\t\nprefer_local=true\n" ∧
    (sample_snitch.load_property_file (render_file sample_file)).result = .ok () ∧
    (sample_snitch.load_property_file (render_file sample_file)).snitch._my_dc = "east" ∧
    (sample_snitch.load_property_file (render_file sample_file)).snitch._my_rack = "r1" :=
  ⟨by decide,
   property_file_round_trip sample_snitch sample_file "east" "r1" (by decide) (by decide)
     (by decide) (by decide) (by decide)⟩

/-! ## Lifecycle, setters and construction -/

/-- C11: `reset_io_state` changes only `_io_is_stopped`: for every object, after the call
`_my_dc`, `_my_rack`, `_prefer_local`, the saved-endpoints cache (loaded or not, and its
content), the property file name and the parsed property values are what they were, and so
is every other field but the promise. -/
theorem reset_io_state_frame (self : production_snitch_base) :
    (self.reset_io_state).snitch._my_dc = self._my_dc ∧
    (self.reset_io_state).snitch._my_rack = self._my_rack ∧
    (self.reset_io_state).snitch._prefer_local = self._prefer_local ∧
    (self.reset_io_state).snitch._saved_endpoints = self._saved_endpoints ∧
    (self.reset_io_state).snitch._prop_file_name = self._prop_file_name ∧
    (self.reset_io_state).snitch._prop_values = self._prop_values ∧
    (self.reset_io_state).snitch.allowed_property_keys = self.allowed_property_keys ∧
    (self.reset_io_state).snitch._my_distributed = self._my_distributed ∧
    (self.reset_io_state).snitch._prop_file_contents = self._prop_file_contents ∧
    (self.reset_io_state).snitch._prop_file_size = self._prop_file_size ∧
    (self.reset_io_state).load_calls = 0 ∧ (self.reset_io_state).log = [] :=
  ⟨rfl, rfl, rfl, rfl, rfl, rfl, rfl, rfl, rfl, rfl, rfl, rfl⟩

/-- C12: `reset_io_state` is idempotent and never fails: for every object, both the first
and an immediately following second call return normally, each leaves a default-constructed
(unset) promise in `_io_is_stopped`, and the object after the second call is the object
after the first. -/
theorem reset_io_state_idempotent (self : production_snitch_base) :
    (self.reset_io_state).result = .ok () ∧
    ((self.reset_io_state).snitch.reset_io_state).result = .ok () ∧
    (self.reset_io_state).snitch._io_is_stopped = promise.fresh ∧
    ((self.reset_io_state).snitch.reset_io_state).snitch._io_is_stopped = promise.fresh ∧
    (self.reset_io_state).snitch._io_is_stopped.value_set = false ∧
    ((self.reset_io_state).snitch.reset_io_state).snitch = (self.reset_io_state).snitch :=
  ⟨rfl, rfl, rfl, rfl, rfl, rfl⟩

/-- C13: after `set_my_dc(d)` a query for the local address gets `d` from `get_datacenter`,
and after `set_my_rack(r)` it gets `r` from `get_rack`; each of `set_my_dc`, `set_my_rack`
and `set_prefer_local` leaves the two other identity fields and the saved-endpoints cache
as they were. With "east", "r1" and true set, `get_datacenter` of the local address is
"east". -/
theorem setters_set_own_field (self : production_snitch_base) (env : environment)
    (d r : String) (b : Bool) :
    (((self.set_my_dc d).get_datacenter env env.broadcast_address).result = .ok d ∧
      ((self.set_my_rack r).get_rack env env.broadcast_address).result = .ok r) ∧
    ((self.set_my_dc d)._my_dc = d ∧ (self.set_my_dc d)._my_rack = self._my_rack ∧
      (self.set_my_dc d)._prefer_local = self._prefer_local ∧
      (self.set_my_dc d)._saved_endpoints = self._saved_endpoints) ∧
    ((self.set_my_rack r)._my_rack = r ∧ (self.set_my_rack r)._my_dc = self._my_dc ∧
      (self.set_my_rack r)._prefer_local = self._prefer_local ∧
      (self.set_my_rack r)._saved_endpoints = self._saved_endpoints) ∧
    ((self.set_prefer_local b)._prefer_local = b ∧
      (self.set_prefer_local b)._my_dc = self._my_dc ∧
      (self.set_prefer_local b)._my_rack = self._my_rack ∧
      (self.set_prefer_local b)._saved_endpoints = self._saved_endpoints) ∧
    ((((self.set_my_dc "east").set_my_rack "r1").set_prefer_local true).get_datacenter env
      env.broadcast_address).result = .ok "east" := by
  refine ⟨⟨?_, ?_⟩, ⟨rfl, rfl, rfl, rfl⟩, ⟨rfl, rfl, rfl, rfl⟩, ⟨rfl, rfl, rfl, rfl⟩, ?_⟩
  · simp [production_snitch_base.get_datacenter, production_snitch_base.set_my_dc]
  · simp [production_snitch_base.get_rack, production_snitch_base.set_my_rack]
  · simp [production_snitch_base.get_datacenter, production_snitch_base.set_my_dc,
      production_snitch_base.set_my_rack, production_snitch_base.set_prefer_local]

/-- C14: whatever the arguments of the constructor (the file name among them), a string is
in `allowed_property_keys` of the constructed object if and only if it is "dc", "rack",
"prefer_local" or "dc_suffix". -/
theorem constructor_allowed_property_keys (base : snitch_base) (conf_dir : String)
    (prop_file_size : Nat) (prop_file_name : String) (k : String) :
    k ∈ (production_snitch_base.construct base conf_dir prop_file_size
        prop_file_name).allowed_property_keys ↔
      k = "dc" ∨ k = "rack" ∨ k = "prefer_local" ∨ k = "dc_suffix" := by
  simp [production_snitch_base.construct, dc_property_key, rack_property_key,
    prefer_local_property_key, dc_suffix_property_key]

/-- The default name, appended to a directory, comes after the directory itself or after
the directory and one separator. -/
theorem path_append_default_name (conf_dir : String) :
    path_append conf_dir "cassandra-rackdc.properties" =
      (if conf_dir = "" ∨ conf_dir.data.getLast? = some '/' then
        conf_dir ++ "cassandra-rackdc.properties"
      else conf_dir ++ "/" ++ "cassandra-rackdc.properties") := by
  have hd : conf_dir.data = [] ↔ conf_dir = "" :=
    ⟨fun h => String.ext h, fun h => by rw [h]⟩
  unfold path_append
  rw [if_neg (by decide), if_neg (by decide)]
  simp only [hd]

theorem path_append_default_name_ne_empty (conf_dir : String) :
    path_append conf_dir "cassandra-rackdc.properties" ≠ "" := by
  rw [path_append_default_name]
  intro h
  have h' := congrArg String.data h
  split at h' <;> simp [String.data_append] at h'

/-- C15: the constructor sets `_prop_file_name` to the given name if that name is not
empty, and otherwise to the configuration directory with "cassandra-rackdc.properties"
appended as a path component (after one separator, unless the directory is empty or ends
with one); so the stored name is the given one exactly when the given one is not empty. -/
theorem constructor_prop_file_name (base : snitch_base) (conf_dir : String)
    (prop_file_size : Nat) (prop_file_name : String) :
    (prop_file_name ≠ "" →
      (production_snitch_base.construct base conf_dir prop_file_size
        prop_file_name)._prop_file_name = prop_file_name) ∧
    (prop_file_name = "" →
      (production_snitch_base.construct base conf_dir prop_file_size
        prop_file_name)._prop_file_name =
        path_append conf_dir "cassandra-rackdc.properties" ∧
      (production_snitch_base.construct base conf_dir prop_file_size
        prop_file_name)._prop_file_name =
        (if conf_dir = "" ∨ conf_dir.data.getLast? = some '/' then
          conf_dir ++ "cassandra-rackdc.properties"
        else conf_dir ++ "/" ++ "cassandra-rackdc.properties")) ∧
    ((production_snitch_base.construct base conf_dir prop_file_size
        prop_file_name)._prop_file_name = prop_file_name ↔ prop_file_name ≠ "") := by
  refine ⟨?_, ?_, ?_⟩
  · intro h
    simp [production_snitch_base.construct, h]
  · intro h
    have h1 : (production_snitch_base.construct base conf_dir prop_file_size
        prop_file_name)._prop_file_name =
        path_append conf_dir "cassandra-rackdc.properties" := by
      simp [production_snitch_base.construct, h, snitch_properties_filename]
    exact ⟨h1, by rw [h1, path_append_default_name]⟩
  · constructor
    · intro h hempty
      have h1 : (production_snitch_base.construct base conf_dir prop_file_size
          prop_file_name)._prop_file_name =
          path_append conf_dir "cassandra-rackdc.properties" := by
        simp [production_snitch_base.construct, hempty, snitch_properties_filename]
      rw [h1, hempty] at h
      exact path_append_default_name_ne_empty conf_dir h
    · intro h
      simp [production_snitch_base.construct, h]

/-- C15, on two directories: a named file is kept; with no name, the default name lands in
the configuration directory, with or without a trailing separator on the directory. -/
theorem constructor_prop_file_name_witness :
    (production_snitch_base.construct ⟨"", "", false⟩ "/etc/scylla" 0
      "/tmp/rackdc.properties")._prop_file_name = "/tmp/rackdc.properties" ∧
    (production_snitch_base.construct ⟨"", "", false⟩ "/etc/scylla" 0 "")._prop_file_name =
      "/etc/scylla/cassandra-rackdc.properties" ∧
    (production_snitch_base.construct ⟨"", "", false⟩ "/etc/scylla/" 0 "")._prop_file_name =
      "/etc/scylla/cassandra-rackdc.properties" :=
  ⟨(constructor_prop_file_name ⟨"", "", false⟩ "/etc/scylla" 0 "/tmp/rackdc.properties").1
      (by decide),
   ((constructor_prop_file_name ⟨"", "", false⟩ "/etc/scylla" 0 "").2.1 rfl).2.trans
      (by decide),
   ((constructor_prop_file_name ⟨"", "", false⟩ "/etc/scylla/" 0 "").2.1 rfl).2.trans
      (by decide)⟩

/-! ## Precedence, laziness and frame of the queries -/

/-- Two environments with the same store behaviour, in both of which the gossiper has no
value of `key` for `endpoint`, give the same outcome of `get_endpoint_info`. -/
theorem get_endpoint_info_congr (self : production_snitch_base) (env env' : environment)
    (endpoint : inet_address) (key : application_state) (default_val : String)
    (hm : no_membership_value env endpoint key) (hm' : no_membership_value env' endpoint key)
    (hl : env'.load_dc_rack_info = env.load_dc_rack_info) :
    self.get_endpoint_info env endpoint key default_val =
      self.get_endpoint_info env' endpoint key default_val := by
  unfold production_snitch_base.get_endpoint_info
  simp only [bind_none_of_no_membership_value hm, bind_none_of_no_membership_value hm', hl]

/-- C16: a gossip endpoint state that exists for a non-local endpoint but holds no value
of the requested application state (whatever else it holds) counts for nothing: the
outcome of `get_datacenter` / `get_rack` is the one obtained in an environment whose
gossiper has no endpoint state for that endpoint at all, namely the field of the saved
entry when there is one and the default sentinel otherwise. -/
theorem membership_without_attribute_counts_for_nothing (self : production_snitch_base)
    (env env' : environment) (endpoint : inet_address) (st : endpoint_state)
    (hne : endpoint ≠ env.broadcast_address)
    (hst : env.local_gossiper.get_endpoint_state_for_endpoint endpoint = some st)
    (hb : env'.broadcast_address = env.broadcast_address)
    (hl : env'.load_dc_rack_info = env.load_dc_rack_info)
    (hnone : env'.local_gossiper.get_endpoint_state_for_endpoint endpoint = none) :
    (st.get_application_state application_state.DC = none →
      self.get_datacenter env endpoint = self.get_datacenter env' endpoint ∧
      ∀ saved, saved_snapshot self env saved →
        (self.get_datacenter env endpoint).result =
          .ok (match map_find endpoint saved with
            | some entry => entry.dc
            | none => "UNKNOWN_DC")) ∧
    (st.get_application_state application_state.RACK = none →
      self.get_rack env endpoint = self.get_rack env' endpoint ∧
      ∀ saved, saved_snapshot self env saved →
        (self.get_rack env endpoint).result =
          .ok (match map_find endpoint saved with
            | some entry => entry.rack
            | none => "UNKNOWN_RACK")) := by
  have hm : ∀ key, st.get_application_state key = none →
      no_membership_value env endpoint key := by
    intro key hkey st' hst'
    rw [hst] at hst'
    cases hst'
    exact hkey
  have hm' : ∀ key, no_membership_value env' endpoint key := by
    intro key st' hst'
    rw [hnone] at hst'
    cases hst'
  have hne' : endpoint ≠ env'.broadcast_address := by rw [hb]; exact hne
  constructor
  · intro hkey
    refine ⟨?_, ?_⟩
    · simp only [production_snitch_base.get_datacenter, hne, hne', if_false]
      exact get_endpoint_info_congr self env env' endpoint _ _ (hm _ hkey) (hm' _) hl
    · intro saved hs
      have h := get_endpoint_info_of_saved self env endpoint application_state.DC default_dc
        saved (hm _ hkey) hs
      rw [production_snitch_base.get_datacenter, if_neg hne, h]
      simp only [saved_lookup, default_dc]
      cases map_find endpoint saved <;> simp
  · intro hkey
    refine ⟨?_, ?_⟩
    · simp only [production_snitch_base.get_rack, hne, hne', if_false]
      exact get_endpoint_info_congr self env env' endpoint _ _ (hm _ hkey) (hm' _) hl
    · intro saved hs
      have h := get_endpoint_info_of_saved self env endpoint application_state.RACK
        default_rack saved (hm _ hkey) hs
      rw [production_snitch_base.get_rack, if_neg hne, h]
      simp only [saved_lookup, default_rack]
      cases map_find endpoint saved <;> simp

/-- C16, on the sample: gossip holds only a rack for the peer; its datacenter is answered
from the store ("dc1"), as it is when gossip does not know the peer at all. -/
theorem membership_without_attribute_counts_for_nothing_witness :
    (sample_snitch.get_datacenter sample_env addr_peer).result = .ok "dc1" ∧
    (sample_snitch.get_datacenter { sample_env with local_gossiper := ⟨[]⟩ }
      addr_peer).result = .ok "dc1" :=
  have h := (membership_without_attribute_counts_for_nothing sample_snitch sample_env
    { sample_env with local_gossiper := ⟨[]⟩ } addr_peer
    ⟨[(application_state.RACK, ⟨"r2", 7⟩)]⟩ (by decide) (by decide) rfl rfl
    (by decide)).1 (by decide)
  ⟨(h.2 [(addr_peer, ⟨"dc1", "r1"⟩), (addr_saved, ⟨"dc3", "r3"⟩)]
      (Or.inr ⟨by decide, by decide⟩)).trans (by decide),
   h.1 ▸ (h.2 [(addr_peer, ⟨"dc1", "r1"⟩), (addr_saved, ⟨"dc3", "r3"⟩)]
      (Or.inr ⟨by decide, by decide⟩)).trans (by decide)⟩

/-- C17: the store load is lazy. A query for the local address, and a query for a non-local
address whose gossip state holds the requested value, make no call of `load_dc_rack_info`
and return the object as it was (a not-loaded cache stays not loaded); a query calls the
load only if it gets past the self check and the gossiper while the cache is not loaded,
and then it calls it exactly once. -/
theorem store_load_is_lazy (self : production_snitch_base) (env : environment) (q : query) :
    (q.endpoint = env.broadcast_address →
      (self.ask env q).load_calls = 0 ∧ (self.ask env q).snitch = self) ∧
    (∀ st v, env.local_gossiper.get_endpoint_state_for_endpoint q.endpoint = some st →
      st.get_application_state q.key = some v →
      (self.ask env q).load_calls = 0 ∧ (self.ask env q).snitch = self) ∧
    ((self.ask env q).load_calls ≠ 0 →
      reaches_saved_endpoints env q ∧ self._saved_endpoints = none) ∧
    (reaches_saved_endpoints env q → self._saved_endpoints = none →
      (self.ask env q).load_calls = 1) := by
  have hskip : ¬ reaches_saved_endpoints env q →
      (self.ask env q).load_calls = 0 ∧ (self.ask env q).snitch = self := by
    intro hn
    rcases ask_cases self env q with h | h | h
    · exact ⟨h.2.1, h.1⟩
    · exact absurd h.2.1 hn
    · exact absurd h.2.1 hn
  refine ⟨?_, ?_, ?_, ?_⟩
  · intro hself
    exact hskip (fun hr => hr.1 hself)
  · intro st v hst hv
    apply hskip
    intro hr
    have := hr.2 st hst
    rw [hv] at this
    cases this
  · intro hcalls
    rcases ask_cases self env q with h | h | h
    · exact absurd h.2.1 hcalls
    · exact ⟨h.2.1, h.1⟩
    · exact ⟨h.2.1, h.1⟩
  · intro hr hnone
    rcases ask_cases self env q with h | h | h
    · exact absurd hnone (h.2.2.2 hr)
    · obtain ⟨_, _, _, _, _, hc, _⟩ := h
      exact hc
    · obtain ⟨_, _, _, _, _, hc, _⟩ := h
      exact hc

/-- C17, on the sample: a query for the local address and a query answered by gossip leave
the not-loaded cache not loaded; the query for a peer unknown to gossip calls the load. -/
theorem store_load_is_lazy_witness :
    (sample_snitch.ask sample_env (.get_datacenter addr_self)).snitch._saved_endpoints
      = none ∧
    (sample_snitch.ask sample_env (.get_rack addr_peer)).load_calls = 0 ∧
    (sample_snitch.ask sample_env (.get_rack addr_saved)).load_calls = 1 :=
  ⟨((store_load_is_lazy sample_snitch sample_env (.get_datacenter addr_self)).1
      (by decide)).2 ▸ (by decide),
   ((store_load_is_lazy sample_snitch sample_env (.get_rack addr_peer)).2.1
      ⟨[(application_state.RACK, ⟨"r2", 7⟩)]⟩ ⟨"r2", 7⟩ (by decide) (by decide)).1,
   (store_load_is_lazy sample_snitch sample_env (.get_rack addr_saved)).2.2.2
      (by decide) (by decide)⟩

/-- C18: a query never changes the node's identity and does not read `_prefer_local`. For
every query, `_my_dc`, `_my_rack` and `_prefer_local` after the call are what they were;
the object after the call is the object before it, or the same object with its not-loaded
cache now loaded; and an object that differs only in `_prefer_local` gives the same result
and makes the same number of store calls. -/
theorem query_keeps_identity (self : production_snitch_base) (env : environment) (q : query)
    (b : Bool) :
    ((self.ask env q).snitch._my_dc = self._my_dc ∧
      (self.ask env q).snitch._my_rack = self._my_rack ∧
      (self.ask env q).snitch._prefer_local = self._prefer_local) ∧
    ((self.ask env q).snitch = self ∨
      (self._saved_endpoints = none ∧
        ∃ m, (self.ask env q).snitch = { self with _saved_endpoints := some m })) ∧
    (({ self with _prefer_local := b } : production_snitch_base).ask env q).result =
      (self.ask env q).result ∧
    (({ self with _prefer_local := b } : production_snitch_base).ask env q).load_calls =
      (self.ask env q).load_calls := by
  have hframe : (self.ask env q).snitch = self ∨
      (self._saved_endpoints = none ∧
        ∃ m, (self.ask env q).snitch = { self with _saved_endpoints := some m }) := by
    rcases ask_cases self env q with h | h | h
    · exact Or.inl h.1
    · obtain ⟨hn, _, m, _, hsn, _⟩ := h
      exact Or.inr ⟨hn, m, hsn⟩
    · obtain ⟨_, _, _, _, hsn, _⟩ := h
      exact Or.inl hsn
  refine ⟨?_, hframe, ?_, ?_⟩
  · rcases hframe with h | ⟨_, m, h⟩ <;> rw [h] <;> exact ⟨rfl, rfl, rfl⟩
  · cases q with
    | get_datacenter endpoint =>
      simp only [production_snitch_base.ask, production_snitch_base.get_datacenter,
        production_snitch_base.get_endpoint_info]
      split
      · rfl
      · split
        · rfl
        · split
          · rfl
          · split <;> rfl
    | get_rack endpoint =>
      simp only [production_snitch_base.ask, production_snitch_base.get_rack,
        production_snitch_base.get_endpoint_info]
      split
      · rfl
      · split
        · rfl
        · split
          · rfl
          · split <;> rfl
  · cases q with
    | get_datacenter endpoint =>
      simp only [production_snitch_base.ask, production_snitch_base.get_datacenter,
        production_snitch_base.get_endpoint_info]
      split
      · rfl
      · split
        · rfl
        · split
          · rfl
          · split <;> rfl
    | get_rack endpoint =>
      simp only [production_snitch_base.ask, production_snitch_base.get_rack,
        production_snitch_base.get_endpoint_info]
      split
      · rfl
      · split
        · rfl
        · split
          · rfl
          · split <;> rfl

end locator
